import Mathlib

/-!
# A verification development for the yoctochat io_uring relay server

This file embeds the completion-dispatch engine of `yc_uring.c` (the
io_uring variant of the yoctochat relay server) as pure Lean functions
and proves properties of its behaviour.

The embedding follows the source closely:

* `ycr_kind_t`, `yc_request_t` mirror the request record types
  (`yc_request_t` / `yc_io_request_t` / `yc_accept_request_t` are merged
  into one structure: the header fields plus the io payload, which is
  empty for minimal and accept records; the accept record's peer-address
  storage is not modelled, being out of scope per the spec).
* `yc_dispatch` is the body of the completion-dispatch `switch` in
  `main` (lines 214-370): given the connection table, the completing
  request record and the completion's result code, it returns the
  updated table and the ordered list of effects (submissions to the
  io_uring facility and record frees) the handler performs.
* `sysStep` / `sysRun` wrap the dispatcher in the facility model: a
  completion may only be delivered for a record currently held by the
  facility (in flight), with the read buffer rewritten by the facility.
* `yc_setup` / `yc_main` model the setup sequence (lines 121-177) and
  the outer loop's exit behaviour.
-/

namespace Yoctochat

set_option maxRecDepth 200000

/-- Constant `NUM_CONNS`: max number of connections (line 44). -/
def NUM_CONNS : Nat := 128

/-- Size of `ycr_iobuf` in `yc_io_request_t` (line 77). -/
def IOBUF_SIZE : Nat := 1024

/-- The kinds of requests issued (`ycr_kind_t`, lines 57-62). -/
inductive ycr_kind_t where
  | ACCEPT
  | READ
  | WRITE
  | CLOSE
deriving DecidableEq, Repr

/-- A request record. `ycr_event` and `ycr_fd` are the `yc_request_t`
header (lines 66-69); `ycr_iobuf` and `ycr_iov_len` are the io payload of
`yc_io_request_t` (lines 74-78): the byte buffer and the iovec length.
Minimal (close) and accept records carry an empty io payload. -/
structure yc_request_t where
  ycr_event : ycr_kind_t
  ycr_fd : Nat
  ycr_iobuf : List Nat
  ycr_iov_len : Nat
deriving DecidableEq, Repr

/-- Function `yc_req_new` (lines 89-94): allocate a minimal request. In the
source it is only ever called with `YCR_KIND_CLOSE`. -/
def yc_req_new (event : ycr_kind_t) (fd : Nat) : yc_request_t :=
  ⟨event, fd, [], 0⟩

/-- Function `yc_io_req_new` (lines 97-104): allocate a read/write request; the
iovec points at the record's own `IOBUF_SIZE`-byte buffer with
`iov_len = sizeof(iobuf)`. The malloc'd buffer contents are
indeterminate in C and never observed before being overwritten; they are
modelled as zero bytes. -/
def yc_io_req_new (event : ycr_kind_t) (fd : Nat) : yc_request_t :=
  ⟨event, fd, List.replicate IOBUF_SIZE 0, IOBUF_SIZE⟩

/-- Function `yc_accept_req_new` (lines 107-113): allocate an accept request for
the given server fd (address storage not modelled). -/
def yc_accept_req_new (fd : Nat) : yc_request_t :=
  ⟨.ACCEPT, fd, [], 0⟩

/-- The effect of `memcpy(dst, src, n)` on byte buffers: the first `n` bytes of `src`
replace the first `n` bytes of `dst`. -/
def memcpy (dst src : List Nat) (n : Nat) : List Nat :=
  src.take n ++ dst.drop n

/-- One effect of a completion handler: either a submission to the
facility (`io_uring_prep_*` + `io_uring_sqe_set_data(rec)` +
`io_uring_submit`, recorded as the operation kind, the target fd and the
attached record) or a `yc_req_free` of a record. -/
inductive Action where
  | submit (op : ycr_kind_t) (fd : Nat) (rec : yc_request_t)
  | free (rec : yc_request_t)
deriving DecidableEq, Repr

/-- The write record built for destination `dest_fd` in the fan-out loop
(lines 313-315): `yc_io_req_new(YCR_KIND_WRITE, dest_fd)`, then
`memcpy(wreq->ycr_iobuf, rreq->ycr_iobuf, res)`, then
`wreq->ycr_iovec.iov_len = res`. -/
def mkWriteReq (dest_fd : Nat) (srcbuf : List Nat) (res : Nat) : yc_request_t :=
  let wreq := yc_io_req_new .WRITE dest_fd
  { wreq with ycr_iobuf := memcpy wreq.ycr_iobuf srcbuf res, ycr_iov_len := res }

/-- The fan-out loop of the READ success branch (lines 304-322): for
each `dest_fd` in `0 .. NUM_CONNS-1`, if `conns[dest_fd] && dest_fd != fd`,
build a fresh write record carrying the first `res` bytes of the read
buffer and submit an async writev to `dest_fd`. -/
def fanoutWrites (conns : List Bool) (fd : Nat) (srcbuf : List Nat) (res : Nat) :
    List Action :=
  (List.range NUM_CONNS).filterMap fun dest_fd =>
    if conns.getD dest_fd false && dest_fd != fd then
      some (.submit .WRITE dest_fd (mkWriteReq dest_fd srcbuf res))
    else none

/-- The completion-dispatch switch of `main` (lines 214-370). Input: the
connection table `conns`, the completing record `req` (as delivered, so a
read completion's buffer already holds the data the facility wrote into
it) and the completion result `res` (`cqe->res`; negative = negated
errno). Output: the updated connection table and the handler's effects in
program order. -/
def yc_dispatch (conns : List Bool) (req : yc_request_t) (res : Int) :
    List Bool × List Action :=
  match req.ycr_event with
  | .ACCEPT =>
    if res < 0 then
      -- log, then re-arm the accept reusing the record (lines 248-251)
      (conns, [.submit .ACCEPT req.ycr_fd req])
    else
      -- conns[res] = 1; submit a read for the new fd; re-arm accept
      -- (lines 235-251)
      (conns.set res.toNat true,
        [.submit .READ res.toNat (yc_io_req_new .READ res.toNat),
         .submit .ACCEPT req.ycr_fd req])
  | .READ =>
    if res < 0 then
      -- free the read record, submit async close, conns[fd] = 0
      -- (lines 262-279)
      (conns.set req.ycr_fd false,
        [.free req, .submit .CLOSE req.ycr_fd (yc_req_new .CLOSE req.ycr_fd)])
    else if res = 0 then
      -- end of stream: same behaviour as the error block (lines 282-296)
      (conns.set req.ycr_fd false,
        [.free req, .submit .CLOSE req.ycr_fd (yc_req_new .CLOSE req.ycr_fd)])
    else
      -- fan out to every other active connection, then re-arm the read
      -- reusing the record (lines 298-331)
      (conns,
        fanoutWrites conns req.ycr_fd req.ycr_iobuf res.toNat
          ++ [.submit .READ req.ycr_fd req])
  | .WRITE =>
    if res < 0 then
      -- free the write record, submit async close, conns[fd] = 0
      -- (lines 340-353)
      (conns.set req.ycr_fd false,
        [.free req, .submit .CLOSE req.ycr_fd (yc_req_new .CLOSE req.ycr_fd)])
    else
      -- written successfully, just free the record (lines 355-358)
      (conns, [.free req])
  | .CLOSE =>
    -- just free the record (lines 364-368)
    (conns, [.free req])

/-- A completion event as the loop sees it: the correlated record
(`cqe->user_data`) and the result (`cqe->res`). -/
structure Completion where
  req : yc_request_t
  res : Int
deriving DecidableEq, Repr

/-- Fold the dispatcher over a list of completions, tracking the
connection table. -/
def runConns (conns : List Bool) : List Completion → List Bool
  | [] => conns
  | c :: cs => runConns (yc_dispatch conns c.req c.res).1 cs

/-- Fold the dispatcher over a list of completions, collecting every
effect in order. -/
def runActions (conns : List Bool) : List Completion → List Action
  | [] => []
  | c :: cs =>
      (yc_dispatch conns c.req c.res).2
        ++ runActions (yc_dispatch conns c.req c.res).1 cs

/-- The connection table after `memset(&conns, 0, sizeof(conns))`
(lines 183-184): all `NUM_CONNS` slots inactive. -/
def initConns : List Bool := List.replicate NUM_CONNS false

/-! ## The facility model: reachable completion sequences

A completion may only be delivered for a record the facility currently
holds (submitted and not yet completed). The facility delivers the record
back unchanged, except that a read record's buffer has been rewritten
with the bytes read. `sysStep` / `sysRun` track the in-flight record set
and refuse (return `none` on) a completion that no in-flight record
could have produced, so any trace `sysRun` accepts is a reachable
completion sequence. -/

/-- Relation `deliveredFrom r q`: the delivered record `q` can be in-flight
record `r` at completion time. For a READ record the facility has
written the read data into the buffer, so the buffer contents may
differ (the allocation, hence the length, and the header and iov_len
are unchanged); every other kind comes back exactly as submitted. -/
def deliveredFrom (r q : yc_request_t) : Bool :=
  if r.ycr_event == .READ then
    q.ycr_event == r.ycr_event && q.ycr_fd == r.ycr_fd
      && q.ycr_iov_len == r.ycr_iov_len
      && q.ycr_iobuf.length == r.ycr_iobuf.length
  else q == r

/-- Result codes the facility can deliver for a record: a read returns
at most the buffer capacity it was given, a write at most the length it
was asked to write; accept and close results are unconstrained (negative
= error). -/
def resOk (q : yc_request_t) (res : Int) : Bool :=
  match q.ycr_event with
  | .ACCEPT => true
  | .READ => res ≤ (q.ycr_iov_len : Int)
  | .WRITE => res ≤ (q.ycr_iov_len : Int)
  | .CLOSE => true

/-- The records a list of handler effects hands to the facility. -/
def submittedRecs (acts : List Action) : List yc_request_t :=
  acts.filterMap fun a =>
    match a with
    | .submit _ _ rec => some rec
    | .free _ => none

/-- Dispatcher-plus-facility state: the connection table and the records
currently held by the facility (in flight). -/
structure SysState where
  conns : List Bool
  inflight : List yc_request_t
deriving DecidableEq, Repr

/-- One step of the loop under the facility model: check the completion
is deliverable (its record is in flight and its result admissible),
remove the completing record from flight, dispatch, and put every record
the handler submitted back in flight. -/
def sysStep (s : SysState) (c : Completion) : Option SysState :=
  if s.inflight.any (fun r => deliveredFrom r c.req) && resOk c.req c.res then
    let out := yc_dispatch s.conns c.req c.res
    some ⟨out.1,
      s.inflight.eraseP (fun r => deliveredFrom r c.req) ++ submittedRecs out.2⟩
  else none

/-- Run the loop under the facility model over a completion sequence;
`none` means the sequence is not reachable. -/
def sysRun (s : SysState) : List Completion → Option SysState
  | [] => some s
  | c :: cs =>
    match sysStep s c with
    | some s2 => sysRun s2 cs
    | none => none

/-- The state on entering the dispatch loop: empty connection table and
the one initial accept submitted before the loop (lines 194-198). -/
def initState (server_fd : Nat) : SysState :=
  ⟨initConns, [yc_accept_req_new server_fd]⟩

/-! ## The setup sequence and the outer loop's exit behaviour -/

/-- Outcomes of the environment calls made during setup, in program
order (lines 121-177): the argument count, the `atoi` of `argv[1]`, and
the return values of `socket`, `setsockopt`, `bind`, `listen` and
`io_uring_queue_init`. -/
structure SetupEnv where
  argc : Nat
  atoi_port : Int
  socket_res : Int
  setsockopt_res : Int
  bind_res : Int
  listen_res : Int
  queue_init_res : Int
deriving DecidableEq, Repr

/-- The setup sequence (lines 121-177): each failing step prints a
message and `exit(1)` (modelled as `none`); on success the server fd is
returned and the loop is entered. -/
def yc_setup (e : SetupEnv) : Option Int :=
  if e.argc < 2 then none
  else if e.atoi_port ≤ 0 then none
  else if e.socket_res < 0 then none
  else if e.setsockopt_res < 0 then none
  else if e.bind_res < 0 then none
  else if e.listen_res < 0 then none
  else if e.queue_init_res < 0 then none
  else some e.socket_res

/-- The exit behaviour of `main`: if setup fails, exit code 1 before the loop.
Otherwise the loop processes completions while `io_uring_wait_cqe`
returns `>= 0`; the environment is summarised as the finite completion
sequence processed (`trace`) and the sign of the next wait result
(`waitRes`). A failing wait exits 1 (lines 376-380); otherwise the
process is still running (`none`). Returns the exit code (if any) and
the connection table reached. -/
def yc_main (e : SetupEnv) (trace : List Completion) (waitRes : Int) :
    Option Nat × List Bool :=
  match yc_setup e with
  | none => (some 1, initConns)
  | some _ =>
    (if waitRes < 0 then some 1 else none, runConns initConns trace)

/-! ## Access accounting for the connection table -/

/-- The indices at which the handler of a completion reads or writes
`conns`: `conns[res] = 1` on accept success (line 235), `conns[fd] = 0`
on read error/EOF (lines 278, 295) and write error (line 352), and the
reads `conns[dest_fd]` for `dest_fd` in `0 .. NUM_CONNS-1` in the
fan-out loop (lines 304-307). -/
def tableAccesses (req : yc_request_t) (res : Int) : List Nat :=
  match req.ycr_event with
  | .ACCEPT => if res < 0 then [] else [res.toNat]
  | .READ =>
    if res < 0 then [req.ycr_fd]
    else if res = 0 then [req.ycr_fd]
    else List.range NUM_CONNS
  | .WRITE => if res < 0 then [req.ycr_fd] else []
  | .CLOSE => []

/-! ## Classifiers and counters over handler effects -/

/-- The fd an effect targets: the fd argument of the `io_uring_prep_*`
call for a submission, the record's fd for a free. -/
def actionFd : Action → Nat
  | .submit _ fd _ => fd
  | .free rec => rec.ycr_fd

/-- Whether an effect is a submission of an accept operation. -/
def isAcceptSubmit : Action → Bool
  | .submit .ACCEPT _ _ => true
  | _ => false

/-- Whether an effect re-arms the given record: a submission handing
that very record back to the facility. -/
def isRearmOf (req : yc_request_t) : Action → Bool
  | .submit _ _ rec => rec == req
  | .free _ => false

/-- Whether an effect releases the given record (`yc_req_free`). -/
def isFreeOf (req : yc_request_t) : Action → Bool
  | .submit _ _ _ => false
  | .free rec => rec == req

/-- The records attached to write submissions among a list of effects. -/
def writeRecs (acts : List Action) : List yc_request_t :=
  acts.filterMap fun a =>
    match a with
    | .submit .WRITE _ rec => some rec
    | _ => none

/-- Number of accept completions processed in a completion sequence. -/
def acceptCompletions (tr : List Completion) : Nat :=
  tr.countP fun c => c.req.ycr_event == .ACCEPT

/-- Number of accept operations submitted over a whole run: the one
initial submission made before entering the loop (lines 194-198) plus
every accept submission the handlers perform. -/
def acceptSubmissions (conns : List Bool) (tr : List Completion) : Nat :=
  1 + (runActions conns tr).countP isAcceptSubmit

/-! ## Concrete runs used as counterexamples and failing inputs

Server fd 3; clients get fds 4 and 5. -/

/-- A read buffer as the facility returns it after reading one byte
(an "h") into a fresh 1024-byte buffer. -/
def oneByteBuf : List Nat := memcpy (List.replicate IOBUF_SIZE 0) [104] 1

/-- The read record of connection 4, as delivered after reading 1 byte. -/
def readRec4 : yc_request_t := ⟨.READ, 4, oneByteBuf, IOBUF_SIZE⟩

/-- The read record of connection 5, as delivered after reading 1 byte. -/
def readRec5 : yc_request_t := ⟨.READ, 5, oneByteBuf, IOBUF_SIZE⟩

/-- The write record the fan-out of connection 4's read builds for
destination 5. -/
def writeRec5 : yc_request_t := mkWriteReq 5 oneByteBuf 1

/-- The run leading up to the late-read scenario: connections 4 and 5
accepted, connection 4's read completes with 1 byte (fanning a write out
to 5), and that write fails with `-EPIPE`, which marks 5 inactive and
submits its close while 5's read is still in flight. -/
def lateReadStem : List Completion :=
  [⟨yc_accept_req_new 3, 4⟩,
   ⟨yc_accept_req_new 3, 5⟩,
   ⟨readRec4, 1⟩,
   ⟨writeRec5, -32⟩]

/-- The full late-read run: after `lateReadStem`, connection 5's
outstanding read completes with 1 byte. -/
def lateReadRun : List Completion := lateReadStem ++ [⟨readRec5, 1⟩]

/-- The record of the first read on connection 4 when the peer closed
immediately: delivered with its buffer untouched and result 0. -/
def eofRec4 : yc_request_t := ⟨.READ, 4, List.replicate IOBUF_SIZE 0, IOBUF_SIZE⟩

/-- The immediate-close run: connection 4 is accepted and its very first
read completes with 0 (the peer closed without sending a byte). -/
def immediateCloseRun : List Completion :=
  [⟨yc_accept_req_new 3, 4⟩, ⟨eofRec4, 0⟩]

/-- A small concrete connection table: slots 4 and 5 active out of
`NUM_CONNS`. -/
def conns45 : List Bool := (initConns.set 4 true).set 5 true

/-- A setup environment in which every setup step succeeds. -/
def setupOk : SetupEnv := ⟨2, 7777, 3, 0, 0, 0, 0⟩

/-! ## Helper lemmas -/

theorem filterMap_ite_eq_map_filter {α β : Type} (p : α → Bool) (g : α → β)
    (l : List α) :
    (l.filterMap fun a => if p a then some (g a) else none) =
      (l.filter p).map g := by
  induction l with
  | nil => rfl
  | cons a l ih =>
    by_cases h : p a <;>
      simp [List.filterMap_cons, List.filter_cons, h, ih]

theorem fanoutWrites_eq_map_filter (conns : List Bool) (fd : Nat)
    (srcbuf : List Nat) (n : Nat) :
    fanoutWrites conns fd srcbuf n =
      (((List.range NUM_CONNS).filter fun d => conns.getD d false && d != fd).map
        fun d => Action.submit .WRITE d (mkWriteReq d srcbuf n)) := by
  unfold fanoutWrites
  exact filterMap_ite_eq_map_filter _ _ _

theorem fanoutWrites_map_actionFd (conns : List Bool) (fd : Nat)
    (srcbuf : List Nat) (n : Nat) :
    (fanoutWrites conns fd srcbuf n).map actionFd =
      (List.range NUM_CONNS).filter fun d => conns.getD d false && d != fd := by
  rw [fanoutWrites_eq_map_filter, List.map_map]
  have h : (actionFd ∘ fun d => Action.submit .WRITE d (mkWriteReq d srcbuf n)) =
      fun d => d := by
    funext d; rfl
  rw [h, List.map_id']

theorem mem_fanoutWrites {conns : List Bool} {fd : Nat} {srcbuf : List Nat}
    {n : Nat} {a : Action} :
    a ∈ fanoutWrites conns fd srcbuf n ↔
      ∃ d, d < NUM_CONNS ∧ conns.getD d false = true ∧ d ≠ fd ∧
        a = Action.submit .WRITE d (mkWriteReq d srcbuf n) := by
  rw [fanoutWrites_eq_map_filter]
  simp only [List.mem_map, List.mem_filter, List.mem_range, Bool.and_eq_true,
    bne_iff_ne, ne_eq]
  constructor
  · rintro ⟨d, ⟨hd, hact, hne⟩, rfl⟩
    exact ⟨d, hd, hact, hne, rfl⟩
  · rintro ⟨d, hd, hact, hne, rfl⟩
    exact ⟨d, ⟨hd, hact, hne⟩, rfl⟩

theorem fanoutWrites_countP_fd (conns : List Bool) (fd : Nat) (srcbuf : List Nat)
    (n : Nat) (d : Nat) :
    (fanoutWrites conns fd srcbuf n).countP (fun a => actionFd a == d) =
      if d < NUM_CONNS ∧ conns.getD d false = true ∧ d ≠ fd then 1 else 0 := by
  have h1 : (fanoutWrites conns fd srcbuf n).countP (fun a => actionFd a == d)
      = List.count d ((fanoutWrites conns fd srcbuf n).map actionFd) := by
    rw [List.count, List.countP_map]
    rfl
  rw [h1, fanoutWrites_map_actionFd]
  split_ifs with h
  · obtain ⟨hd, hact, hne⟩ := h
    have hp : (conns.getD d false && d != fd) = true := by
      rw [Bool.and_eq_true, bne_iff_ne]
      exact ⟨hact, hne⟩
    exact List.count_eq_one_of_mem ((List.nodup_range _).filter _)
      (List.mem_filter.mpr ⟨List.mem_range.mpr hd, hp⟩)
  · rw [List.count_eq_zero.mpr]
    intro hmem
    rcases List.mem_filter.mp hmem with ⟨hmr, hcond⟩
    have hdlt := List.mem_range.mp hmr
    simp only [Bool.and_eq_true, bne_iff_ne, ne_eq] at hcond
    exact h ⟨hdlt, hcond.1, hcond.2⟩

theorem fanoutWrites_fds_sorted (conns : List Bool) (fd : Nat)
    (srcbuf : List Nat) (n : Nat) :
    ((fanoutWrites conns fd srcbuf n).map actionFd).Pairwise (· < ·) := by
  rw [fanoutWrites_map_actionFd]
  exact (List.pairwise_lt_range _).filter _

theorem yc_dispatch_accept_err (conns : List Bool) (req : yc_request_t)
    (res : Int) (hev : req.ycr_event = .ACCEPT) (h : res < 0) :
    yc_dispatch conns req res = (conns, [.submit .ACCEPT req.ycr_fd req]) := by
  unfold yc_dispatch
  rw [hev]
  simp [h]

theorem yc_dispatch_accept_ok (conns : List Bool) (req : yc_request_t)
    (res : Int) (hev : req.ycr_event = .ACCEPT) (h : 0 ≤ res) :
    yc_dispatch conns req res =
      (conns.set res.toNat true,
        [.submit .READ res.toNat (yc_io_req_new .READ res.toNat),
         .submit .ACCEPT req.ycr_fd req]) := by
  unfold yc_dispatch
  rw [hev]
  simp [not_lt.mpr h]

theorem yc_dispatch_read_err (conns : List Bool) (req : yc_request_t)
    (res : Int) (hev : req.ycr_event = .READ) (h : res < 0) :
    yc_dispatch conns req res =
      (conns.set req.ycr_fd false,
        [.free req, .submit .CLOSE req.ycr_fd (yc_req_new .CLOSE req.ycr_fd)]) := by
  unfold yc_dispatch
  rw [hev]
  simp [h]

theorem yc_dispatch_read_eof (conns : List Bool) (req : yc_request_t)
    (res : Int) (hev : req.ycr_event = .READ) (h : res = 0) :
    yc_dispatch conns req res =
      (conns.set req.ycr_fd false,
        [.free req, .submit .CLOSE req.ycr_fd (yc_req_new .CLOSE req.ycr_fd)]) := by
  unfold yc_dispatch
  rw [hev]
  simp [h]

theorem yc_dispatch_read_pos (conns : List Bool) (req : yc_request_t)
    (res : Int) (hev : req.ycr_event = .READ) (h : 0 < res) :
    yc_dispatch conns req res =
      (conns,
        fanoutWrites conns req.ycr_fd req.ycr_iobuf res.toNat
          ++ [.submit .READ req.ycr_fd req]) := by
  unfold yc_dispatch
  rw [hev]
  simp [not_lt.mpr (le_of_lt h), ne_of_gt h]

theorem yc_dispatch_write_err (conns : List Bool) (req : yc_request_t)
    (res : Int) (hev : req.ycr_event = .WRITE) (h : res < 0) :
    yc_dispatch conns req res =
      (conns.set req.ycr_fd false,
        [.free req, .submit .CLOSE req.ycr_fd (yc_req_new .CLOSE req.ycr_fd)]) := by
  unfold yc_dispatch
  rw [hev]
  simp [h]

theorem yc_dispatch_write_ok (conns : List Bool) (req : yc_request_t)
    (res : Int) (hev : req.ycr_event = .WRITE) (h : 0 ≤ res) :
    yc_dispatch conns req res = (conns, [.free req]) := by
  unfold yc_dispatch
  rw [hev]
  simp [not_lt.mpr h]

theorem yc_dispatch_close (conns : List Bool) (req : yc_request_t)
    (res : Int) (hev : req.ycr_event = .CLOSE) :
    yc_dispatch conns req res = (conns, [.free req]) := by
  unfold yc_dispatch
  rw [hev]

theorem mkWriteReq_event (d : Nat) (srcbuf : List Nat) (n : Nat) :
    (mkWriteReq d srcbuf n).ycr_event = .WRITE := rfl

theorem mkWriteReq_fd (d : Nat) (srcbuf : List Nat) (n : Nat) :
    (mkWriteReq d srcbuf n).ycr_fd = d := rfl

theorem mkWriteReq_iov_len (d : Nat) (srcbuf : List Nat) (n : Nat) :
    (mkWriteReq d srcbuf n).ycr_iov_len = n := rfl

theorem mkWriteReq_take (d : Nat) (srcbuf : List Nat) (n : Nat)
    (h : n ≤ srcbuf.length) :
    (mkWriteReq d srcbuf n).ycr_iobuf.take n = srcbuf.take n := by
  show (memcpy (List.replicate IOBUF_SIZE 0) srcbuf n).take n = srcbuf.take n
  unfold memcpy
  rw [List.take_append_of_le_length (by rw [List.length_take]; omega)]
  rw [List.take_take]
  simp

theorem mkWriteReq_length (d : Nat) (srcbuf : List Nat) (n : Nat)
    (h : n ≤ srcbuf.length) (h2 : n ≤ IOBUF_SIZE) :
    (mkWriteReq d srcbuf n).ycr_iobuf.length = IOBUF_SIZE := by
  show (memcpy (List.replicate IOBUF_SIZE 0) srcbuf n).length = IOBUF_SIZE
  unfold memcpy
  rw [List.length_append, List.length_take, List.length_drop,
    List.length_replicate]
  omega

theorem getD_set_eq_ite (l : List Bool) (i : Nat) (v : Bool) (d : Nat) :
    (l.set i v).getD d false =
      if d = i ∧ i < l.length then v else l.getD d false := by
  rcases eq_or_ne d i with rfl | hne
  · by_cases hi : d < l.length
    · simp [List.getD_eq_getElem?_getD, List.getElem?_set_self hi, hi]
    · rw [List.set_eq_of_length_le (le_of_not_lt hi)]
      simp [hi]
  · simp [List.getD_eq_getElem?_getD, List.getElem?_set_ne (Ne.symm hne), hne]

theorem beq_false_of_event_ne {r q : yc_request_t}
    (h : r.ycr_event ≠ q.ycr_event) : (r == q) = false := by
  rw [beq_eq_false_iff_ne]
  intro he
  exact h (by rw [he])

theorem countP_isAcceptSubmit_fanout (conns : List Bool) (fd : Nat)
    (srcbuf : List Nat) (n : Nat) :
    (fanoutWrites conns fd srcbuf n).countP isAcceptSubmit = 0 := by
  rw [List.countP_eq_zero]
  intro a ha
  obtain ⟨d, _, _, _, rfl⟩ := mem_fanoutWrites.mp ha
  simp [isAcceptSubmit]

theorem dispatch_countP_acceptSubmit (conns : List Bool) (req : yc_request_t)
    (res : Int) :
    ((yc_dispatch conns req res).2.countP isAcceptSubmit) =
      if req.ycr_event = .ACCEPT then 1 else 0 := by
  cases hev : req.ycr_event with
  | ACCEPT =>
    rcases lt_or_le res 0 with h | h
    · rw [yc_dispatch_accept_err _ _ _ hev h]
      simp [List.countP_cons, isAcceptSubmit]
    · rw [yc_dispatch_accept_ok _ _ _ hev h]
      simp [List.countP_cons, isAcceptSubmit]
  | READ =>
    rcases lt_trichotomy res 0 with h | h | h
    · rw [yc_dispatch_read_err _ _ _ hev h]
      simp [List.countP_cons, isAcceptSubmit]
    · rw [yc_dispatch_read_eof _ _ _ hev h]
      simp [List.countP_cons, isAcceptSubmit]
    · rw [yc_dispatch_read_pos _ _ _ hev h]
      rw [List.countP_append, countP_isAcceptSubmit_fanout]
      simp [List.countP_cons, isAcceptSubmit]
  | WRITE =>
    rcases lt_or_le res 0 with h | h
    · rw [yc_dispatch_write_err _ _ _ hev h]
      simp [List.countP_cons, isAcceptSubmit]
    · rw [yc_dispatch_write_ok _ _ _ hev h]
      simp [List.countP_cons, isAcceptSubmit]
  | CLOSE =>
    rw [yc_dispatch_close _ _ _ hev]
    simp [List.countP_cons, isAcceptSubmit]

theorem writeRecs_dispatch_read_pos (conns : List Bool) (req : yc_request_t)
    (res : Int) (hev : req.ycr_event = .READ) (hres : 0 < res) :
    writeRecs (yc_dispatch conns req res).2 =
      (((List.range NUM_CONNS).filter
          fun d => conns.getD d false && d != req.ycr_fd).map
        fun d => mkWriteReq d req.ycr_iobuf res.toNat) := by
  rw [yc_dispatch_read_pos _ _ _ hev hres]
  unfold writeRecs
  rw [List.filterMap_append, fanoutWrites_eq_map_filter, List.filterMap_map]
  have h1 : (((fun a => match a with
        | Action.submit .WRITE _ rec => some rec
        | _ => none) ∘
      fun d => Action.submit .WRITE d (mkWriteReq d req.ycr_iobuf res.toNat))) =
      fun d => some (mkWriteReq d req.ycr_iobuf res.toNat) := by
    funext d; rfl
  rw [h1]
  have h2 : (fun d => some (mkWriteReq d req.ycr_iobuf res.toNat)) =
      some ∘ fun d => mkWriteReq d req.ycr_iobuf res.toNat := rfl
  rw [h2, List.filterMap_eq_map]
  simp

/-! ## Claim theorems -/

/-- C1: on a Read completion with positive result `res` on connection
`req.ycr_fd`, the dispatcher's effects are a block of Write submissions
followed by exactly one Read re-submission on the same connection
reusing the same record; each Write submission targets one other active
connection (exactly one Write per active `d ≠ fd`, none to self or to
inactive handles), carries a record whose iovec length is `res` and
whose buffer starts with exactly the first `res` bytes of the Read
buffer, and destinations appear in ascending connection-handle order. -/
theorem C1_read_success_fanout (conns : List Bool) (req : yc_request_t)
    (res : Int) (hev : req.ycr_event = .READ) (hres : 0 < res)
    (hlen : conns.length = NUM_CONNS)
    (hbuf : res.toNat ≤ req.ycr_iobuf.length) :
    ∃ ws,
      (yc_dispatch conns req res).2 =
        ws ++ [.submit .READ req.ycr_fd req] ∧
      (∀ a ∈ ws, ∃ d, d < NUM_CONNS ∧ conns.getD d false = true ∧
        d ≠ req.ycr_fd ∧
        a = Action.submit .WRITE d (mkWriteReq d req.ycr_iobuf res.toNat) ∧
        (mkWriteReq d req.ycr_iobuf res.toNat).ycr_iov_len = res.toNat ∧
        (mkWriteReq d req.ycr_iobuf res.toNat).ycr_iobuf.take res.toNat =
          req.ycr_iobuf.take res.toNat) ∧
      (∀ d : Nat, ws.countP (fun a => actionFd a == d) =
        if conns.getD d false = true ∧ d ≠ req.ycr_fd then 1 else 0) ∧
      (ws.map actionFd).Pairwise (· < ·) := by
  refine ⟨fanoutWrites conns req.ycr_fd req.ycr_iobuf res.toNat, ?_, ?_, ?_, ?_⟩
  · rw [yc_dispatch_read_pos conns req res hev hres]
  · intro a ha
    obtain ⟨d, hd, hact, hne, rfl⟩ := mem_fanoutWrites.mp ha
    exact ⟨d, hd, hact, hne, rfl, rfl, mkWriteReq_take _ _ _ hbuf⟩
  · intro d
    rw [fanoutWrites_countP_fd]
    by_cases hd : d < NUM_CONNS
    · simp [hd]
    · have h0 : conns.getD d false = false :=
        List.getD_eq_default _ _ (by rw [hlen]; omega)
      rw [if_neg (fun hc => hd hc.1), if_neg]
      rw [h0]
      rintro ⟨hc, -⟩
      cases hc
  · exact fanoutWrites_fds_sorted _ _ _ _

/-- Witness for C1: the fan-out of connection 4's one-byte read over the
table in which 4 and 5 are active. -/
theorem C1_read_success_fanout_witness :
    ∃ ws,
      (yc_dispatch conns45 readRec4 1).2 =
        ws ++ [.submit .READ readRec4.ycr_fd readRec4] ∧
      (∀ a ∈ ws, ∃ d, d < NUM_CONNS ∧ conns45.getD d false = true ∧
        d ≠ readRec4.ycr_fd ∧
        a = Action.submit .WRITE d
          (mkWriteReq d readRec4.ycr_iobuf (1 : Int).toNat) ∧
        (mkWriteReq d readRec4.ycr_iobuf (1 : Int).toNat).ycr_iov_len =
          (1 : Int).toNat ∧
        (mkWriteReq d readRec4.ycr_iobuf (1 : Int).toNat).ycr_iobuf.take
            (1 : Int).toNat =
          readRec4.ycr_iobuf.take (1 : Int).toNat) ∧
      (∀ d : Nat, ws.countP (fun a => actionFd a == d) =
        if conns45.getD d false = true ∧ d ≠ readRec4.ycr_fd then 1 else 0) ∧
      (ws.map actionFd).Pairwise (· < ·) :=
  C1_read_success_fanout conns45 readRec4 1 rfl (by decide) (by decide)
    (by decide)

/-- C4: the only transitions of the active flags: a slot is set to true
exactly by a successful Accept completion naming it, set to false
exactly by a Read completion with negative or zero result or a Write
completion with negative result whose record targets it, and is
otherwise untouched by every dispatcher step. -/
theorem C4_active_flag_transitions (conns : List Bool) (req : yc_request_t)
    (res : Int) (d : Nat)
    (hacc : req.ycr_event = .ACCEPT → 0 ≤ res → res.toNat < conns.length) :
    (yc_dispatch conns req res).1.getD d false =
      if req.ycr_event = .ACCEPT ∧ 0 ≤ res ∧ d = res.toNat then true
      else if ((req.ycr_event = .READ ∧ res ≤ 0) ∨
          (req.ycr_event = .WRITE ∧ res < 0)) ∧ d = req.ycr_fd then false
      else conns.getD d false := by
  cases hev : req.ycr_event with
  | ACCEPT =>
    rcases lt_or_le res 0 with h | h
    · rw [yc_dispatch_accept_err _ _ _ hev h]
      rw [if_neg (fun hc => absurd hc.2.1 (not_le.mpr h)), if_neg]
      rintro ⟨⟨habs, -⟩ | ⟨habs, -⟩, -⟩ <;> cases habs
    · rw [yc_dispatch_accept_ok _ _ _ hev h, getD_set_eq_ite]
      have hlt : res.toNat < conns.length := hacc hev h
      by_cases hd : d = res.toNat
      · subst hd
        rw [if_pos ⟨rfl, hlt⟩, if_pos ⟨rfl, h, rfl⟩]
      · rw [if_neg (fun hc => hd hc.1), if_neg (fun hc => hd hc.2.2), if_neg]
        rintro ⟨⟨habs, -⟩ | ⟨habs, -⟩, -⟩ <;> cases habs
  | READ =>
    rcases lt_trichotomy res 0 with h | h | h
    · rw [yc_dispatch_read_err _ _ _ hev h]
      rw [if_neg (fun hc => by cases hc.1)]
      by_cases hd : d = req.ycr_fd
      · subst hd
        rw [if_pos ⟨Or.inl ⟨rfl, le_of_lt h⟩, rfl⟩, getD_set_eq_ite]
        by_cases hflen : req.ycr_fd < conns.length
        · rw [if_pos ⟨rfl, hflen⟩]
        · rw [if_neg (fun hc => hflen hc.2)]
          exact List.getD_eq_default _ _ (le_of_not_lt hflen)
      · rw [if_neg (fun hc => hd hc.2), getD_set_eq_ite,
          if_neg (fun hc => hd hc.1)]
    · rw [yc_dispatch_read_eof _ _ _ hev h]
      rw [if_neg (fun hc => by cases hc.1)]
      by_cases hd : d = req.ycr_fd
      · subst hd
        rw [if_pos ⟨Or.inl ⟨rfl, le_of_eq h⟩, rfl⟩, getD_set_eq_ite]
        by_cases hflen : req.ycr_fd < conns.length
        · rw [if_pos ⟨rfl, hflen⟩]
        · rw [if_neg (fun hc => hflen hc.2)]
          exact List.getD_eq_default _ _ (le_of_not_lt hflen)
      · rw [if_neg (fun hc => hd hc.2), getD_set_eq_ite,
          if_neg (fun hc => hd hc.1)]
    · rw [yc_dispatch_read_pos _ _ _ hev h]
      rw [if_neg (fun hc => by cases hc.1), if_neg]
      rintro ⟨⟨-, habs⟩ | ⟨habs, -⟩, -⟩
      · exact absurd habs (not_le.mpr h)
      · cases habs
  | WRITE =>
    rcases lt_or_le res 0 with h | h
    · rw [yc_dispatch_write_err _ _ _ hev h]
      rw [if_neg (fun hc => by cases hc.1)]
      by_cases hd : d = req.ycr_fd
      · subst hd
        rw [if_pos ⟨Or.inr ⟨rfl, h⟩, rfl⟩, getD_set_eq_ite]
        by_cases hflen : req.ycr_fd < conns.length
        · rw [if_pos ⟨rfl, hflen⟩]
        · rw [if_neg (fun hc => hflen hc.2)]
          exact List.getD_eq_default _ _ (le_of_not_lt hflen)
      · rw [if_neg (fun hc => hd hc.2), getD_set_eq_ite,
          if_neg (fun hc => hd hc.1)]
    · rw [yc_dispatch_write_ok _ _ _ hev h]
      rw [if_neg (fun hc => by cases hc.1), if_neg]
      rintro ⟨⟨habs, -⟩ | ⟨-, habs⟩, -⟩
      · cases habs
      · exact absurd habs (not_lt.mpr h)
  | CLOSE =>
    rw [yc_dispatch_close _ _ _ hev]
    rw [if_neg (fun hc => by cases hc.1), if_neg]
    rintro ⟨⟨habs, -⟩ | ⟨habs, -⟩, -⟩ <;> cases habs

/-- Witness for C4: a successful Accept completion of fd 4 over the
empty table sets slot 4 (and per the theorem instance, only as that
direct effect). -/
theorem C4_active_flag_transitions_witness :
    (yc_dispatch initConns (yc_accept_req_new 3) 4).1.getD 4 false =
      if (yc_accept_req_new 3).ycr_event = .ACCEPT ∧ (0 : Int) ≤ 4 ∧
          4 = (4 : Int).toNat then true
      else if (((yc_accept_req_new 3).ycr_event = .READ ∧ (4 : Int) ≤ 0) ∨
          ((yc_accept_req_new 3).ycr_event = .WRITE ∧ (4 : Int) < 0)) ∧
          4 = (yc_accept_req_new 3).ycr_fd then false
      else initConns.getD 4 false :=
  C4_active_flag_transitions initConns (yc_accept_req_new 3) 4 4
    (fun _ _ => by decide)

/-- C3: after processing any completion sequence, the total number of
Accept operations submitted (the one initial submission made before the
loop plus one unconditional re-arm per Accept completion, successful or
failed) is the number of Accept completions processed plus one. -/
theorem C3_accept_rearm_count (conns : List Bool) (tr : List Completion) :
    acceptSubmissions conns tr = acceptCompletions tr + 1 := by
  unfold acceptSubmissions acceptCompletions
  have main : ∀ (tr : List Completion) (conns : List Bool),
      (runActions conns tr).countP isAcceptSubmit =
        tr.countP (fun c => c.req.ycr_event == .ACCEPT) := by
    intro tr
    induction tr with
    | nil => intro conns; rfl
    | cons c cs ih =>
      intro conns
      show ((yc_dispatch conns c.req c.res).2 ++
          runActions (yc_dispatch conns c.req c.res).1 cs).countP
            isAcceptSubmit = _
      rw [List.countP_append, ih, dispatch_countP_acceptSubmit,
        List.countP_cons]
      by_cases h : c.req.ycr_event = .ACCEPT
      · simp [h, Nat.add_comm]
      · simp [h]
  rw [main]
  omega

/-- C5: the process exits with code 1 exactly when a setup step fails or
the blocking wait primitive fails; every exit carries code 1; the
completions processed never affect termination; and setup failure is
exactly the failure of one of the individual setup steps (missing port
argument, invalid port, socket, setsockopt, bind, listen, or
io_uring_queue_init failing). -/
theorem C5_exit_code_discipline (e : SetupEnv) (tr : List Completion)
    (waitRes : Int) :
    ((yc_main e tr waitRes).1 = some 1 ↔ yc_setup e = none ∨ waitRes < 0) ∧
    (∀ code, (yc_main e tr waitRes).1 = some code → code = 1) ∧
    (∀ tr', (yc_main e tr waitRes).1 = (yc_main e tr' waitRes).1) ∧
    (yc_setup e = none ↔
      e.argc < 2 ∨ e.atoi_port ≤ 0 ∨ e.socket_res < 0 ∨
      e.setsockopt_res < 0 ∨ e.bind_res < 0 ∨ e.listen_res < 0 ∨
      e.queue_init_res < 0) := by
  have hsetup : yc_setup e = none ↔
      (e.argc < 2 ∨ e.atoi_port ≤ 0 ∨ e.socket_res < 0 ∨
        e.setsockopt_res < 0 ∨ e.bind_res < 0 ∨ e.listen_res < 0 ∨
        e.queue_init_res < 0) := by
    unfold yc_setup
    split_ifs with h1 h2 h3 h4 h5 h6 h7 <;> simp_all
  refine ⟨?_, ?_, ?_, hsetup⟩
  · unfold yc_main
    cases hm : yc_setup e with
    | none => simp
    | some v => by_cases hw : waitRes < 0 <;> simp [hw]
  · intro code
    unfold yc_main
    cases hm : yc_setup e with
    | none =>
      intro hc
      exact (Option.some.inj hc).symm
    | some v =>
      by_cases hw : waitRes < 0
      · rw [if_pos hw]
        intro hc
        exact (Option.some.inj hc).symm
      · rw [if_neg hw]
        intro hc
        cases hc
  · intro tr'
    unfold yc_main
    cases yc_setup e <;> rfl

/-- Witness for C5: every setup step succeeding and the wait primitive
then failing exits with code 1. -/
theorem C5_exit_code_discipline_witness :
    (yc_main setupOk [] (-1)).1 = some 1 :=
  (C5_exit_code_discipline setupOk [] (-1)).1.mpr (Or.inr (by decide))

/-- C7: every fan-out Write submission carries a freshly built record,
one per destination: its 1024-byte buffer is its own full-size copy
whose first `res` bytes are exactly the first `res` bytes of the read
buffer, its iovec length is `res`; records of distinct destinations are
pairwise distinct (their target fds differ pairwise), and replacing one
entry in the list of fan-out write records leaves every other entry
unchanged. -/
theorem C7_fresh_write_records (conns : List Bool) (req : yc_request_t)
    (res : Int) (hev : req.ycr_event = .READ) (hres : 0 < res)
    (hbuf : res.toNat ≤ req.ycr_iobuf.length)
    (hcap : req.ycr_iobuf.length = IOBUF_SIZE) :
    (∀ w ∈ writeRecs (yc_dispatch conns req res).2,
      w.ycr_event = .WRITE ∧ w.ycr_iov_len = res.toNat ∧
      w.ycr_iobuf.length = IOBUF_SIZE ∧
      w.ycr_iobuf.take res.toNat = req.ycr_iobuf.take res.toNat) ∧
    ((writeRecs (yc_dispatch conns req res).2).map
      yc_request_t.ycr_fd).Pairwise (· ≠ ·) ∧
    (∀ (i j : Nat) (w' : yc_request_t), i ≠ j →
      ((writeRecs (yc_dispatch conns req res).2).set i w')[j]? =
        (writeRecs (yc_dispatch conns req res).2)[j]?) := by
  rw [writeRecs_dispatch_read_pos conns req res hev hres]
  refine ⟨?_, ?_, ?_⟩
  · intro w hw
    rw [List.mem_map] at hw
    obtain ⟨d, hd, rfl⟩ := hw
    have h2 : res.toNat ≤ IOBUF_SIZE := hcap ▸ hbuf
    exact ⟨rfl, rfl, mkWriteReq_length _ _ _ hbuf h2,
      mkWriteReq_take _ _ _ hbuf⟩
  · rw [List.map_map]
    have h1 : (yc_request_t.ycr_fd ∘
        fun d => mkWriteReq d req.ycr_iobuf res.toNat) = fun d => d := by
      funext d; rfl
    rw [h1, List.map_id']
    exact ((List.pairwise_lt_range _).filter _).imp fun h => Nat.ne_of_lt h
  · intro i j w' hij
    exact List.getElem?_set_ne hij

/-- Witness for C7: the fan-out write records of connection 4's one-byte
read over the table in which 4 and 5 are active. -/
theorem C7_fresh_write_records_witness :
    (∀ w ∈ writeRecs (yc_dispatch conns45 readRec4 1).2,
      w.ycr_event = .WRITE ∧ w.ycr_iov_len = (1 : Int).toNat ∧
      w.ycr_iobuf.length = IOBUF_SIZE ∧
      w.ycr_iobuf.take (1 : Int).toNat =
        readRec4.ycr_iobuf.take (1 : Int).toNat) ∧
    ((writeRecs (yc_dispatch conns45 readRec4 1).2).map
      yc_request_t.ycr_fd).Pairwise (· ≠ ·) ∧
    (∀ (i j : Nat) (w' : yc_request_t), i ≠ j →
      ((writeRecs (yc_dispatch conns45 readRec4 1).2).set i w')[j]? =
        (writeRecs (yc_dispatch conns45 readRec4 1).2)[j]?) :=
  C7_fresh_write_records conns45 readRec4 1 rfl (by decide) (by decide)
    (by decide)

theorem tableAccesses_eq_accept (req : yc_request_t) (res : Int)
    (hev : req.ycr_event = .ACCEPT) :
    tableAccesses req res = if res < 0 then [] else [res.toNat] := by
  unfold tableAccesses
  rw [hev]

theorem tableAccesses_eq_read (req : yc_request_t) (res : Int)
    (hev : req.ycr_event = .READ) :
    tableAccesses req res =
      if res < 0 then [req.ycr_fd]
      else if res = 0 then [req.ycr_fd]
      else List.range NUM_CONNS := by
  unfold tableAccesses
  rw [hev]

theorem tableAccesses_eq_write (req : yc_request_t) (res : Int)
    (hev : req.ycr_event = .WRITE) :
    tableAccesses req res = if res < 0 then [req.ycr_fd] else [] := by
  unfold tableAccesses
  rw [hev]

theorem tableAccesses_eq_close (req : yc_request_t) (res : Int)
    (hev : req.ycr_event = .CLOSE) :
    tableAccesses req res = [] := by
  unfold tableAccesses
  rw [hev]

/-- C8: trusting the facility to surface only in-range handles (the
completing record's fd, and the new fd of a successful Accept, are below
`NUM_CONNS`), every connection-table access a handler performs indexes
below the fixed capacity `NUM_CONNS`, and table slots outside the
accessed indices are untouched by the handler. -/
theorem C8_table_accesses_in_range (conns : List Bool) (req : yc_request_t)
    (res : Int) (hfd : req.ycr_fd < NUM_CONNS)
    (hacc : req.ycr_event = .ACCEPT → 0 ≤ res → res.toNat < NUM_CONNS) :
    (∀ i ∈ tableAccesses req res, i < NUM_CONNS) ∧
    (∀ d, d ∉ tableAccesses req res →
      (yc_dispatch conns req res).1.getD d false = conns.getD d false) := by
  cases hev : req.ycr_event with
  | ACCEPT =>
    rw [tableAccesses_eq_accept req res hev]
    rcases lt_or_le res 0 with h | h
    · rw [if_pos h, yc_dispatch_accept_err _ _ _ hev h]
      exact ⟨fun i hi => absurd hi (List.not_mem_nil i), fun d _ => rfl⟩
    · rw [if_neg (not_lt.mpr h), yc_dispatch_accept_ok _ _ _ hev h]
      constructor
      · intro i hi
        rw [List.mem_singleton.mp hi]
        exact hacc hev h
      · intro d hd
        rw [getD_set_eq_ite,
          if_neg fun hc => (hd (List.mem_singleton.mpr hc.1))]
  | READ =>
    rw [tableAccesses_eq_read req res hev]
    rcases lt_trichotomy res 0 with h | h | h
    · rw [if_pos h, yc_dispatch_read_err _ _ _ hev h]
      constructor
      · intro i hi
        rw [List.mem_singleton.mp hi]
        exact hfd
      · intro d hd
        rw [getD_set_eq_ite,
          if_neg fun hc => (hd (List.mem_singleton.mpr hc.1))]
    · rw [if_neg (by omega), if_pos h, yc_dispatch_read_eof _ _ _ hev h]
      constructor
      · intro i hi
        rw [List.mem_singleton.mp hi]
        exact hfd
      · intro d hd
        rw [getD_set_eq_ite,
          if_neg fun hc => (hd (List.mem_singleton.mpr hc.1))]
    · rw [if_neg (by omega), if_neg (by omega),
        yc_dispatch_read_pos _ _ _ hev h]
      exact ⟨fun i hi => List.mem_range.mp hi, fun d _ => rfl⟩
  | WRITE =>
    rw [tableAccesses_eq_write req res hev]
    rcases lt_or_le res 0 with h | h
    · rw [if_pos h, yc_dispatch_write_err _ _ _ hev h]
      constructor
      · intro i hi
        rw [List.mem_singleton.mp hi]
        exact hfd
      · intro d hd
        rw [getD_set_eq_ite,
          if_neg fun hc => (hd (List.mem_singleton.mpr hc.1))]
    · rw [if_neg (not_lt.mpr h), yc_dispatch_write_ok _ _ _ hev h]
      exact ⟨fun i hi => absurd hi (List.not_mem_nil i), fun d _ => rfl⟩
  | CLOSE =>
    rw [tableAccesses_eq_close req res hev, yc_dispatch_close _ _ _ hev]
    exact ⟨fun i hi => absurd hi (List.not_mem_nil i), fun d _ => rfl⟩

/-- Witness for C8: the accesses of a successful Accept completion of
fd 4 on the listening fd 3 are in range and touch only slot 4. -/
theorem C8_table_accesses_in_range_witness :
    (∀ i ∈ tableAccesses (yc_accept_req_new 3) 4, i < NUM_CONNS) ∧
    (∀ d, d ∉ tableAccesses (yc_accept_req_new 3) 4 →
      (yc_dispatch initConns (yc_accept_req_new 3) 4).1.getD d false =
        initConns.getD d false) :=
  C8_table_accesses_in_range initConns (yc_accept_req_new 3) 4 (by decide)
    (fun _ _ => by decide)

/-- C9: each completion's record is disposed of exactly once: re-armed
(handed back to the facility by some submission) exactly when the
completion is an Accept (any result) or a successful Read, and released
(freed) exactly otherwise (Read error/end-of-stream, Write completions,
Close completions); never both and never neither. -/
theorem C9_record_disposed_exactly_once (conns : List Bool)
    (req : yc_request_t) (res : Int) :
    ((yc_dispatch conns req res).2.countP (isRearmOf req) =
      if req.ycr_event = .ACCEPT ∨ (req.ycr_event = .READ ∧ 0 < res)
      then 1 else 0) ∧
    ((yc_dispatch conns req res).2.countP (isFreeOf req) =
      if req.ycr_event = .ACCEPT ∨ (req.ycr_event = .READ ∧ 0 < res)
      then 0 else 1) := by
  cases hev : req.ycr_event with
  | ACCEPT =>
    rcases lt_or_le res 0 with h | h
    · rw [yc_dispatch_accept_err _ _ _ hev h]
      simp [List.countP_cons, isRearmOf, isFreeOf]
    · rw [yc_dispatch_accept_ok _ _ _ hev h]
      have hne : (yc_io_req_new .READ res.toNat == req) = false :=
        beq_false_of_event_ne (by rw [hev]; exact fun habs => by cases habs)
      simp [List.countP_cons, isRearmOf, isFreeOf, hne]
  | READ =>
    rcases lt_trichotomy res 0 with h | h | h
    · rw [yc_dispatch_read_err _ _ _ hev h]
      have hne : (yc_req_new .CLOSE req.ycr_fd == req) = false :=
        beq_false_of_event_ne (by rw [hev]; exact fun habs => by cases habs)
      have hres : ¬ (0 : Int) < res := by omega
      simp [List.countP_cons, isRearmOf, isFreeOf, hne, hres]
    · rw [yc_dispatch_read_eof _ _ _ hev h]
      have hne : (yc_req_new .CLOSE req.ycr_fd == req) = false :=
        beq_false_of_event_ne (by rw [hev]; exact fun habs => by cases habs)
      have hres : ¬ (0 : Int) < res := by omega
      simp [List.countP_cons, isRearmOf, isFreeOf, hne, hres]
    · rw [yc_dispatch_read_pos _ _ _ hev h]
      have hz : (fanoutWrites conns req.ycr_fd req.ycr_iobuf
          res.toNat).countP (isRearmOf req) = 0 := by
        rw [List.countP_eq_zero]
        intro a ha
        obtain ⟨d, _, _, _, rfl⟩ := mem_fanoutWrites.mp ha
        have hne : (mkWriteReq d req.ycr_iobuf res.toNat == req) = false :=
          beq_false_of_event_ne (by rw [hev]; exact fun habs => by cases habs)
        simp [isRearmOf, hne]
      have hz2 : (fanoutWrites conns req.ycr_fd req.ycr_iobuf
          res.toNat).countP (isFreeOf req) = 0 := by
        rw [List.countP_eq_zero]
        intro a ha
        obtain ⟨d, _, _, _, rfl⟩ := mem_fanoutWrites.mp ha
        simp [isFreeOf]
      constructor
      · rw [List.countP_append, hz]
        simp [List.countP_cons, isRearmOf, h]
      · rw [List.countP_append, hz2]
        simp [List.countP_cons, isFreeOf, h]
  | WRITE =>
    rcases lt_or_le res 0 with h | h
    · rw [yc_dispatch_write_err _ _ _ hev h]
      have hne : (yc_req_new .CLOSE req.ycr_fd == req) = false :=
        beq_false_of_event_ne (by rw [hev]; exact fun habs => by cases habs)
      simp [List.countP_cons, isRearmOf, isFreeOf, hne]
    · rw [yc_dispatch_write_ok _ _ _ hev h]
      simp [List.countP_cons, isRearmOf, isFreeOf]
  | CLOSE =>
    rw [yc_dispatch_close _ _ _ hev]
    simp [List.countP_cons, isRearmOf, isFreeOf]

/-- C10: a Write completion with any positive result, including one
strictly smaller than the submitted iovec length (a short write), only
releases the Write record: the connection table is unchanged (the
destination stays active) and nothing is submitted, so the undelivered
tail is silently dropped. -/
theorem C10_short_write_release_only (conns : List Bool)
    (req : yc_request_t) (res : Int) (hev : req.ycr_event = .WRITE)
    (hres : 0 < res) :
    yc_dispatch conns req res = (conns, [.free req]) :=
  yc_dispatch_write_ok conns req res hev (le_of_lt hres)

/-- Witness for C10: a write record with iovec length 5 whose completion
reports only 1 byte written is simply freed. -/
theorem C10_short_write_release_only_witness :
    yc_dispatch conns45 ⟨.WRITE, 5, List.replicate 5 104, 5⟩ 1 =
      (conns45, [.free ⟨.WRITE, 5, List.replicate 5 104, 5⟩]) :=
  C10_short_write_release_only conns45 ⟨.WRITE, 5, List.replicate 5 104, 5⟩ 1
    rfl (by decide)

/-- C2 is right about the spec's intent but the code violates it: the
five-completion run `lateReadRun` is accepted by the facility model
(each completion is for an in-flight record), after its first four
completions handle 5 is inactive (marked so by the failed Write, its
Close submitted, its Read still in flight) — and the dispatcher,
handling the late Read completion on 5 with a positive result, submits
a Read on handle 5 again: the success branch of the Read case re-arms
unconditionally, without checking the connection table. -/
theorem C2_late_read_rearmed_on_inactive :
    (sysRun (initState 3) lateReadRun).isSome = true ∧
    ((sysRun (initState 3) lateReadStem).map fun s =>
      s.conns.getD 5 false) = some false ∧
    ((sysRun (initState 3) lateReadStem).map fun s =>
      decide (Action.submit .READ 5 readRec5 ∈
        (yc_dispatch s.conns readRec5 1).2)) = some true := by
  refine ⟨by decide, by decide, by decide⟩

/-- C6 as stated is false on the code: counterexample. The
two-completion run `immediateCloseRun` (connection 4 accepted, then its
very first Read completes with result 0 — the peer closed without
sending a byte) is accepted by the facility model, yet after the Accept
completion — an observable point before the end-of-stream arrives —
connection 4 is active in the table. -/
theorem C6_counterexample_active_window :
    (sysRun (initState 3) immediateCloseRun).isSome = true ∧
    ((sysRun (initState 3) [⟨yc_accept_req_new 3, 4⟩]).map fun s =>
      s.conns.getD 4 false) = some true := by
  refine ⟨by decide, by decide⟩

/-- C6 (amended): a connection whose peer closes immediately after
accept without sending any bytes is, contrary to the original claim,
created active: the direct effect of its successful Accept completion is
to mark its slot active, before any read on it completes (so it is
active at that observable point); and whenever its Read completion with
result zero is later processed, over whatever connection table the
dispatcher then holds (any steps, including a Write failure on this very
connection, may have intervened), the direct effect of that step is to
mark the slot inactive and submit the connection's Close. Nothing is
claimed about the slot's value in between. -/
theorem C6_created_active_then_eof_inactive (conns conns2 : List Bool)
    (areq rreq : yc_request_t) (res : Int)
    (haev : areq.ycr_event = .ACCEPT) (hres : 0 ≤ res)
    (hlt : res.toNat < conns.length)
    (hrev : rreq.ycr_event = .READ) (hrfd : rreq.ycr_fd = res.toNat) :
    (yc_dispatch conns areq res).1.getD res.toNat false = true ∧
    (yc_dispatch conns2 rreq 0).1.getD res.toNat false = false ∧
    Action.submit .CLOSE rreq.ycr_fd (yc_req_new .CLOSE rreq.ycr_fd) ∈
      (yc_dispatch conns2 rreq 0).2 := by
  rw [yc_dispatch_accept_ok _ _ _ haev hres]
  rw [yc_dispatch_read_eof _ _ _ hrev rfl]
  refine ⟨?_, ?_, ?_⟩
  · rw [getD_set_eq_ite, if_pos ⟨rfl, hlt⟩]
  · rw [hrfd, getD_set_eq_ite]
    by_cases h2 : res.toNat < conns2.length
    · rw [if_pos ⟨rfl, h2⟩]
    · rw [if_neg fun hc => h2 hc.2]
      exact List.getD_eq_default _ _ (le_of_not_lt h2)
  · simp

/-- Witness for the amended C6: connection 4 accepted into the empty
table; its read later completes with zero over the table in which 4 and
5 are active. -/
theorem C6_created_active_then_eof_inactive_witness :
    (yc_dispatch initConns (yc_accept_req_new 3) 4).1.getD
      (4 : Int).toNat false = true ∧
    (yc_dispatch conns45 eofRec4 0).1.getD (4 : Int).toNat false = false ∧
    Action.submit .CLOSE eofRec4.ycr_fd (yc_req_new .CLOSE eofRec4.ycr_fd) ∈
      (yc_dispatch conns45 eofRec4 0).2 :=
  C6_created_active_then_eof_inactive initConns conns45 (yc_accept_req_new 3)
    eofRec4 4 rfl (by decide) (by decide) rfl rfl

end Yoctochat
